import Mathlib

/-!
Verification development for the Omar agent application
(`src-tauri/src/gemini.rs` and `src-tauri/src/main.rs`).

The development shallowly embeds the provider client
(`GeminiClient::send_message_streaming`) and the run-start command
(`run_agent`) into Lean.

Modelling conventions:
* Rust `&str` / `String` values are modelled as Lean `String`
  (equivalently `List Char`); all concrete streams in the claims are
  ASCII, so byte indices and char indices coincide wherever the source
  slices by bytes after an ASCII prefix check.
* `serde_json::from_str` is modelled by an executable JSON parser
  (`jsonParse`) that accepts exactly the JSON grammar serde accepts
  (scalars allowed at top level, no trailing input, no trailing commas,
  unescaped control characters rejected, lone `\u` surrogates rejected).
  Two divergences that no claim touches: surrogate *pairs* are rejected
  rather than combined, and for duplicate object keys serde keeps the
  last binding, which `Json.getKey` mirrors by looking up the last
  occurrence.
* Numbers are kept as their source text (`Json.num`); the decoder never
  inspects numeric values.
* Types from the crate's `api.rs` / `agent.rs` / `storage.rs` modules
  (not part of the two given source files) are modelled from the spec's
  data-model section, restricted to what the given code uses.
-/

set_option maxRecDepth 4000 in
/-- Opening brace character, written via its code point. -/
def lbrace : Char := Char.ofNat 123

/-- Closing brace character, written via its code point. -/
def rbrace : Char := Char.ofNat 125

/-- JSON values as produced by `serde_json::from_str`.  Numbers are kept
as their source text because the decoder never reads them. -/
inductive Json where
  | null
  | bool (b : Bool)
  | num (lit : String)
  | str (s : String)
  | arr (elems : List Json)
  | obj (fields : List (String × Json))

/-- Whitespace skipping, as in serde's parser (space, tab, LF, CR). -/
def skipWs : List Char → List Char
  | [] => []
  | c :: cs =>
    if c = ' ' ∨ c = '\t' ∨ c = '\n' ∨ c = '\r' then skipWs cs else c :: cs

/-- Value of a hexadecimal digit. -/
def hexVal (c : Char) : Option Nat :=
  if '0' ≤ c ∧ c ≤ '9' then some (c.toNat - '0'.toNat)
  else if 'a' ≤ c ∧ c ≤ 'f' then some (10 + c.toNat - 'a'.toNat)
  else if 'A' ≤ c ∧ c ≤ 'F' then some (10 + c.toNat - 'A'.toNat)
  else none

/-- Decode one JSON string escape (the character after a backslash),
returning the decoded character and the remaining input.  Lone UTF-16
surrogates are rejected, as in serde. -/
def escChar (e : Char) (cs : List Char) : Option (Char × List Char) :=
  if e = '"' then some ('"', cs)
  else if e = '\\' then some ('\\', cs)
  else if e = '/' then some ('/', cs)
  else if e = 'b' then some ('\x08', cs)
  else if e = 'f' then some ('\x0c', cs)
  else if e = 'n' then some ('\n', cs)
  else if e = 'r' then some ('\r', cs)
  else if e = 't' then some ('\t', cs)
  else if e = 'u' then
    match cs with
    | h1 :: h2 :: h3 :: h4 :: rest =>
      match hexVal h1, hexVal h2, hexVal h3, hexVal h4 with
      | some a, some b, some c, some d =>
        let n := ((a * 16 + b) * 16 + c) * 16 + d
        if 0xD800 ≤ n ∧ n ≤ 0xDFFF then none else some (Char.ofNat n, rest)
      | _, _, _, _ => none
    | _ => none
  else none

/-- Parse the body of a JSON string (after the opening quote), fuelled
for structural recursion.  Returns the decoded characters and the input
after the closing quote. -/
def parseStr : Nat → List Char → Option (List Char × List Char)
  | 0, _ => none
  | _ + 1, [] => none
  | fuel + 1, c :: cs =>
    if c = '"' then some ([], cs)
    else if c = '\\' then
      match cs with
      | [] => none
      | e :: cs2 =>
        match escChar e cs2 with
        | some (ch, rest) =>
          match parseStr fuel rest with
          | some (out, rem) => some (ch :: out, rem)
          | none => none
        | none => none
    else if c.toNat < 0x20 then none
    else
      match parseStr fuel cs with
      | some (out, rem) => some (c :: out, rem)
      | none => none

/-- Split the longest digit prefix off a character list. -/
def takeDigits : List Char → List Char × List Char
  | [] => ([], [])
  | c :: cs =>
    if c.isDigit then
      let (ds, rest) := takeDigits cs
      (c :: ds, rest)
    else ([], c :: cs)

/-- Parse an optional JSON fraction part. -/
def parseFrac : List Char → Option (List Char × List Char)
  | '.' :: rest =>
    match takeDigits rest with
    | ([], _) => none
    | (ds, rest2) => some ('.' :: ds, rest2)
  | cs => some ([], cs)

/-- Parse an optional JSON exponent part. -/
def parseExp : List Char → Option (List Char × List Char)
  | [] => some ([], [])
  | e :: rest =>
    if e = 'e' ∨ e = 'E' then
      let (sgn, rest2) :=
        match rest with
        | '+' :: r => (['+'], r)
        | '-' :: r => (['-'], r)
        | _ => (([] : List Char), rest)
      match takeDigits rest2 with
      | ([], _) => none
      | (ds, rest3) => some (e :: (sgn ++ ds), rest3)
    else some ([], e :: rest)

/-- Parse the integer part of a JSON number (after an optional minus):
either a single `0` or a nonzero digit followed by digits. -/
def parseInt : List Char → Option (List Char × List Char)
  | [] => none
  | c :: rest =>
    if c = '0' then some (['0'], rest)
    else if c.isDigit then
      let (ds, rest2) := takeDigits rest
      some (c :: ds, rest2)
    else none

/-- Parse a JSON number, returning its source text and the rest. -/
def parseNum (cs : List Char) : Option (List Char × List Char) :=
  let (neg, cs1) :=
    match cs with
    | '-' :: rest => ((['-'] : List Char), rest)
    | _ => (([] : List Char), cs)
  match parseInt cs1 with
  | none => none
  | some (ip, cs2) =>
    match parseFrac cs2 with
    | none => none
    | some (fp, cs3) =>
      match parseExp cs3 with
      | none => none
      | some (ep, cs4) => some (neg ++ ip ++ fp ++ ep, cs4)

/-- Parser tasks: a full value, the members of an object (after the
opening brace), or the elements of an array (after the opening
bracket). -/
inductive PTask where
  | value
  | members (first : Bool)
  | elements (first : Bool)

/-- Parser results corresponding to `PTask`. -/
inductive PRes where
  | val (j : Json)
  | fields (fs : List (String × Json))
  | items (es : List Json)

/-- The recursive JSON parser, fuelled for structural recursion; the
grammar follows serde_json (strict: no trailing commas, exact literals
`true` / `false` / `null`). -/
def parseP : Nat → PTask → List Char → Option (PRes × List Char)
  | 0, _, _ => none
  | fuel + 1, PTask.value, cs =>
    match skipWs cs with
    | [] => none
    | c :: rest =>
      if c = '"' then
        match parseStr (rest.length + 1) rest with
        | some (out, rem) => some (PRes.val (Json.str (String.mk out)), rem)
        | none => none
      else if c = lbrace then
        match parseP fuel (PTask.members true) rest with
        | some (PRes.fields fs, rem) => some (PRes.val (Json.obj fs), rem)
        | _ => none
      else if c = '[' then
        match parseP fuel (PTask.elements true) rest with
        | some (PRes.items es, rem) => some (PRes.val (Json.arr es), rem)
        | _ => none
      else if c = 't' then
        match rest with
        | 'r' :: 'u' :: 'e' :: rem => some (PRes.val (Json.bool true), rem)
        | _ => none
      else if c = 'f' then
        match rest with
        | 'a' :: 'l' :: 's' :: 'e' :: rem => some (PRes.val (Json.bool false), rem)
        | _ => none
      else if c = 'n' then
        match rest with
        | 'u' :: 'l' :: 'l' :: rem => some (PRes.val Json.null, rem)
        | _ => none
      else if c = '-' ∨ c.isDigit then
        match parseNum (c :: rest) with
        | some (txt, rem) => some (PRes.val (Json.num (String.mk txt)), rem)
        | none => none
      else none
  | fuel + 1, PTask.members first, cs =>
    match skipWs cs with
    | [] => none
    | c :: rest =>
      if c = rbrace ∧ first then some (PRes.fields [], rest)
      else if c = '"' then
        match parseStr (rest.length + 1) rest with
        | some (key, rem) =>
          match skipWs rem with
          | ':' :: rem2 =>
            match parseP fuel PTask.value rem2 with
            | some (PRes.val v, rem3) =>
              match skipWs rem3 with
              | ',' :: rem4 =>
                match parseP fuel (PTask.members false) rem4 with
                | some (PRes.fields fs, rem5) =>
                  some (PRes.fields ((String.mk key, v) :: fs), rem5)
                | _ => none
              | c2 :: rem4 =>
                if c2 = rbrace then some (PRes.fields [(String.mk key, v)], rem4)
                else none
              | [] => none
            | _ => none
          | _ => none
        | none => none
      else none
  | fuel + 1, PTask.elements first, cs =>
    match skipWs cs with
    | [] => none
    | c :: rest =>
      if c = ']' ∧ first then some (PRes.items [], rest)
      else
        match parseP fuel PTask.value (c :: rest) with
        | some (PRes.val v, rem) =>
          match skipWs rem with
          | ',' :: rem2 =>
            match parseP fuel (PTask.elements false) rem2 with
            | some (PRes.items es, rem3) => some (PRes.items (v :: es), rem3)
            | _ => none
          | ']' :: rem2 => some (PRes.items [v], rem2)
          | _ => none
        | _ => none

/-- Model of `serde_json::from_str::<serde_json::Value>`: parse one JSON
value and require only whitespace to follow. -/
def jsonParse (cs : List Char) : Option Json :=
  match parseP (2 * cs.length + 8) PTask.value cs with
  | some (PRes.val j, rem) => if skipWs rem = [] then some j else none
  | _ => none

/-- Model of `serde_json::Value`'s `Index<&str>`: field lookup returning
`Null` on a non-object or a missing key.  The *last* binding of a key is
returned because serde's map construction lets later duplicate keys
overwrite earlier ones. -/
def Json.getKey (j : Json) (k : String) : Json :=
  match j with
  | Json.obj fields =>
    match (fields.filter (fun p => p.1 == k)).getLast? with
    | some p => p.2
    | none => Json.null
  | _ => Json.null

/-- Model of `serde_json::Value`'s `Index<usize>`: element lookup
returning `Null` on a non-array or out-of-range index. -/
def Json.getIdx (j : Json) (i : Nat) : Json :=
  match j with
  | Json.arr es => (es.get? i).getD Json.null
  | _ => Json.null

/-- Model of `serde_json::Value::as_str`. -/
def Json.asStr (j : Json) : Option String :=
  match j with
  | Json.str s => some s
  | _ => none

/-- Modelled from the spec: `Usage` from `storage.rs` (not among the
given source files) — `{input_tokens, output_tokens,
cache_creation_input_tokens?, cache_read_input_tokens?}`. -/
structure Usage where
  input_tokens : Nat
  output_tokens : Nat
  cache_creation_input_tokens : Option Nat
  cache_read_input_tokens : Option Nat
deriving DecidableEq

/-- Modelled from the spec: `ImageSource` from `api.rs` — the source of
an `Image` block, `{media_type, data (base64)}`. -/
structure ImageSource where
  media_type : String
  data : String
deriving DecidableEq

/-- Modelled from the spec: `ToolResultContent` from `api.rs` —
polymorphic over text / image / error results. -/
inductive ToolResultContent where
  | text (text : String)
  | image (source : ImageSource)
  | error (message : String)
deriving DecidableEq

/-- Modelled from the spec: `ContentBlock` from `api.rs` — polymorphic
over `Text`, `Image`, `ToolUse`, `ToolResult`.  The `ToolUse` input is
a structured key-to-value mapping, modelled as `Json`. -/
inductive ContentBlock where
  | text (text : String)
  | image (source : ImageSource)
  | toolUse (id : String) (name : String) (input : Json)
  | toolResult (tool_use_id : String) (content : ToolResultContent)

/-- Modelled from the spec: `StreamEvent` from `api.rs`.  Only
`TextDelta` is ever produced by the given code. -/
inductive StreamEvent where
  | textDelta (text : String)
  | toolUseStart (id : String) (name : String)
  | toolUseDelta (id : String) (input_fragment : String)
  | toolUseComplete (id : String)
  | usage (u : Usage)
  | error (message : String)
  | done
deriving DecidableEq

/-- Modelled from the spec: the error taxonomy of `api.rs` as used by
`send_message_streaming` — `request` wraps a transport (`reqwest`)
error converted by `?`, `api` carries a provider message, `protocol`
is the spec's `ApiError::Protocol`. -/
inductive ApiError where
  | request (message : String)
  | api (message : String)
  | protocol (message : String)
deriving DecidableEq

/-- Modelled from the spec: `ApiResult` from `api.rs` — the aggregated
`{content, usage}` returned by a streaming call. -/
structure ApiResult where
  content : List ContentBlock
  usage : Usage

/-- Modelled from the spec: `Message` from `api.rs` — a role together
with an ordered sequence of content blocks.  The role is serialized
verbatim into the outbound JSON, so it is modelled as a string. -/
structure Message where
  role : String
  content : List ContentBlock

/-- `AgentMode` from `agent.rs` (spec: `{Computer, Browser}`). -/
inductive AgentMode where
  | computer
  | browser

/-- Modelled from the spec: the fixed Computer-mode system prompt
template `SYSTEM_PROMPT` from `api.rs`; its text is irrelevant to every
claim, so it is represented by a distinct abstract constant. -/
def SYSTEM_PROMPT : String := "SYSTEM_PROMPT_TEMPLATE"

/-- Modelled from the spec: the fixed Browser-mode system prompt
template `BROWSER_SYSTEM_PROMPT` from `api.rs`. -/
def BROWSER_SYSTEM_PROMPT : String := "BROWSER_SYSTEM_PROMPT_TEMPLATE"

/-- `GeminiClient { client, api_key, model }` (the reqwest client handle
carries no state relevant to the embedding). -/
structure GeminiClient where
  api_key : String
  model : String

/-- The provider endpoint `GEMINI_API_URL`. -/
def GEMINI_API_URL : String :=
  "https://generativelanguage.googleapis.com/v1beta/openai/chat/completions"

/-- The all-zero usage value built at the end of
`send_message_streaming`. -/
def zeroUsage : Usage :=
  { input_tokens := 0
    output_tokens := 0
    cache_creation_input_tokens := none
    cache_read_input_tokens := none }

/-- The `"text"` part pushed for a `ContentBlock::Text` block. -/
def textPart (t : String) : Json :=
  Json.obj [("type", Json.str "text"), ("text", Json.str t)]

/-- The `"image_url"` part pushed for a `ContentBlock::Image` block:
the provider's inline-data representation
`data:<media_type>;base64,<data>`. -/
def imagePart (src : ImageSource) : Json :=
  Json.obj [("type", Json.str "image_url"),
    ("image_url",
      Json.obj [("url",
        Json.str ("data:" ++ src.media_type ++ ";base64," ++ src.data))])]

/-- The `for block in msg.content` loop of `send_message_streaming`:
`Text` and `Image` blocks are pushed as parts, every other block kind
is skipped. -/
def contentPartsAux (parts : List Json) : List ContentBlock → List Json
  | [] => parts
  | b :: rest =>
    match b with
    | ContentBlock.text t => contentPartsAux (parts ++ [textPart t]) rest
    | ContentBlock.image src => contentPartsAux (parts ++ [imagePart src]) rest
    | _ => contentPartsAux parts rest

/-- The content parts built for one message. -/
def contentParts (blocks : List ContentBlock) : List Json :=
  contentPartsAux [] blocks

/-- The JSON object built for one outbound message. -/
def messageJson (msg : Message) : Json :=
  Json.obj [("role", Json.str msg.role),
    ("content", Json.arr (contentParts msg.content))]

/-- The system prompt selected by the agent mode. -/
def systemPromptFor (mode : AgentMode) : String :=
  match mode with
  | AgentMode.computer => SYSTEM_PROMPT
  | AgentMode.browser => BROWSER_SYSTEM_PROMPT

/-- The `openai_messages` vector: the mode-selected system message
followed by the translated conversation messages. -/
def openaiMessages (messages : List Message) (mode : AgentMode) : List Json :=
  Json.obj [("role", Json.str "system"),
      ("content", Json.str (systemPromptFor mode))]
    :: messages.map messageJson

/-- The outbound HTTP request (method, URL, headers, JSON body). -/
structure HttpRequest where
  method : String
  url : String
  headers : List (String × String)
  body : Json

/-- The single request built and sent by `send_message_streaming`: a
POST to `GEMINI_API_URL` with a bearer `Authorization` header and the
JSON body `{model, messages, stream, max_tokens}`.  The `model` field
is the hard-coded literal `"gemini-2.0-flash"` from the source, not
`client.model`. -/
def buildRequest (client : GeminiClient) (messages : List Message)
    (mode : AgentMode) : HttpRequest :=
  { method := "POST"
    url := GEMINI_API_URL
    headers := [("Authorization", "Bearer " ++ client.api_key),
                ("Content-Type", "application/json")]
    body := Json.obj [("model", Json.str "gemini-2.0-flash"),
      ("messages", Json.arr (openaiMessages messages mode)),
      ("stream", Json.bool true),
      ("max_tokens", Json.num "4096")] }

/-- Split a character list at every newline (the pieces do not contain
the `\n` separators); like `String.splitOn "\n"`, the result always has
one more piece than there are newlines. -/
def splitNl : List Char → List (List Char)
  | [] => [[]]
  | c :: cs =>
    let rest := splitNl cs
    if c = '\n' then [] :: rest
    else (c :: rest.headD []) :: rest.tail

/-- Strip one trailing carriage return, as Rust's `str::lines` does for
pieces that were terminated by a newline. -/
def stripCr (l : List Char) : List Char :=
  if l.getLast? = some '\r' then l.dropLast else l

/-- Model of Rust's `str::lines`: split at `\n`, strip a `\r` from
pieces that a `\n` terminated, and drop the empty piece a trailing
newline leaves (the final line ending is optional; a trailing piece
without a newline is yielded as-is, `\r` included). -/
def rustLines (cs : List Char) : List (List Char) :=
  let parts := splitNl cs
  let term := parts.dropLast.map stripCr
  match parts.getLast? with
  | some [] => term
  | some last => term ++ [last]
  | none => term

/-- The frame prefix `"data: "` as characters. -/
def dataPrefix : List Char := "data: ".data

/-- The `[DONE]` sentinel payload as characters. -/
def doneLit : List Char := "[DONE]".data

/-- Extract the text delta of one frame payload: parse the JSON and
read `json["choices"][0]["delta"]["content"].as_str()`. -/
def frameContent (data : List Char) : Option String :=
  match jsonParse data with
  | some j =>
    ((((j.getKey "choices").getIdx 0).getKey "delta").getKey "content").asStr
  | none => none

/-- Decoder state: the accumulated `full_text` and the stream events
whose send was attempted on the channel (every `event_tx.send` call, in
order; the send result is discarded by the source). -/
structure DecState where
  fullText : List Char
  events : List StreamEvent
deriving DecidableEq

/-- The `for line in text.lines()` loop body of
`send_message_streaming`: a line with the `data: ` prefix is sliced
after byte 6; the `[DONE]` payload breaks out of the (per-chunk) line
loop; a payload whose JSON parse succeeds and carries
`choices[0].delta.content` appends to `full_text` and sends a
`TextDelta`; every other line is skipped. -/
def processLines (acc : DecState) : List (List Char) → DecState
  | [] => acc
  | line :: rest =>
    if dataPrefix.isPrefixOf line then
      let data := line.drop 6
      if data = doneLit then acc
      else
        match frameContent data with
        | some content =>
          processLines
            { fullText := acc.fullText ++ content.data
              events := acc.events ++ [StreamEvent.textDelta content] } rest
        | none => processLines acc rest
    else processLines acc rest

/-- Processing of one network chunk: decode it to text and iterate over
its lines.  A chunk is modelled as the text the source obtains from
`String::from_utf8_lossy`. -/
def processChunk (acc : DecState) (chunk : String) : DecState :=
  processLines acc (rustLines chunk.data)

/-- Decoding a whole sequence of (successfully received) chunks. -/
def decodeChunks (chunks : List String) : DecState :=
  chunks.foldl processChunk { fullText := [], events := [] }

/-- The `while let Some(item) = stream.next().await` loop: each item is
either a received chunk or a transport error; an error stops the loop
and is returned (via `?`), recording the state reached so far. -/
def consumeStream (acc : DecState) :
    List (Except String String) → DecState × Option String
  | [] => (acc, none)
  | Except.error e :: _ => (acc, some e)
  | Except.ok chunk :: rest => consumeStream (processChunk acc chunk) rest

/-- The provider's HTTP response as observed by the client: the status
success flag, the body text read in the error branch, and the byte
stream items of the success branch. -/
structure HttpResponse where
  status_success : Bool
  error_text : String
  chunks : List (Except String String)

/-- Model of `GeminiClient::send_message_streaming`.  Inputs: the
client, the conversation, the agent mode, whether the receiving end of
`event_tx` is still open, and the provider's response to the built
request.  Output: the request that was sent, the returned
`Result<ApiResult, ApiError>`, and the events actually delivered on
the channel (all attempted sends when the receiver is open, none
otherwise; send results are ignored by the source either way).  The
unused `_voice_mode` parameter is omitted. -/
def send_message_streaming (client : GeminiClient) (messages : List Message)
    (mode : AgentMode) (rxOpen : Bool) (resp : HttpResponse) :
    HttpRequest × Except ApiError ApiResult × List StreamEvent :=
  let req := buildRequest client messages mode
  if resp.status_success then
    match consumeStream { fullText := [], events := [] } resp.chunks with
    | (acc, some e) =>
      (req, Except.error (ApiError.request e),
       if rxOpen then acc.events else [])
    | (acc, none) =>
      (req,
       Except.ok { content := [ContentBlock.text (String.mk acc.fullText)]
                   usage := zeroUsage },
       if rxOpen then acc.events else [])
  else
    (req,
     Except.error (ApiError.api ("Gemini API error: " ++ resp.error_text)),
     [])

/-- Modelled from the spec: the run-state owned by the `Agent`
(`agent.rs` is not among the given source files) — an optional stored
credential and the running flag (`RunState`). -/
structure Agent where
  api_key : Option String
  running : Bool

/-- Modelled from the spec: `Agent::is_running` reads the running
flag. -/
def Agent.is_running (a : Agent) : Bool := a.running

/-- Modelled from the spec: `Agent::has_api_key` tells whether a
credential is configured. -/
def Agent.has_api_key (a : Agent) : Bool := a.api_key.isSome

/-- Modelled from the spec: `HistoryMessage` from `agent.rs`; opaque to
the `run_agent` guard, which never inspects it. -/
structure HistoryMessage where
  role : String
  content : List ContentBlock

/-- Outcome of the `run_agent` command: a synchronous error returned to
the caller, or the asynchronous run task was spawned. -/
inductive RunAgentOutcome where
  | err (msg : String)
  | spawned
deriving DecidableEq

/-- Model of the `run_agent` tauri command: under the state lock it
first rejects a second concurrent run, then rejects a missing
credential, and only otherwise spawns the run — both failures happen
before any network activity or spawned work. -/
def run_agent (instructions : String) (model : String) (mode : AgentMode)
    (voice_mode : Option Bool) (history : List HistoryMessage)
    (context_screenshot : Option String) (conversation_id : Option String)
    (agent : Agent) : RunAgentOutcome :=
  if agent.is_running then RunAgentOutcome.err "Agent is already running"
  else if !agent.has_api_key then
    RunAgentOutcome.err "No API key set. Please add API_KEY in settings"
  else RunAgentOutcome.spawned

/-- First example frame: a delta carrying the text `Hel`. -/
def frame1 : String :=
  "data: \x7b\"choices\":[\x7b\"delta\":\x7b\"content\":\"Hel\"\x7d\x7d]\x7d"

/-- Second example frame: a delta carrying the text `lo`. -/
def frame2 : String :=
  "data: \x7b\"choices\":[\x7b\"delta\":\x7b\"content\":\"lo\"\x7d\x7d]\x7d"

/-- The spec's example stream, arriving as a single unfragmented
chunk. -/
def fullStream : String := frame1 ++ "\n" ++ frame2 ++ "\ndata: [DONE]\n"

/-- A fragmentation of `fullStream` whose first chunk ends in the middle
of the second frame's line. -/
def fragA : String := frame1 ++ "\ndata: \x7b\"choices\":[\x7b\"de"

/-- The rest of `fullStream` after `fragA`. -/
def fragB : String :=
  "lta\":\x7b\"content\":\"lo\"\x7d\x7d]\x7d\ndata: [DONE]\n"

/-- A whole-line fragmentation of `fullStream`: the split falls on the
line boundary after the first frame. -/
def lineChunk1 : String := frame1 ++ "\n"

/-- The rest of `fullStream` after `lineChunk1`. -/
def lineChunk2 : String := frame2 ++ "\ndata: [DONE]\n"

/-- A stream that signals the start of a tool invocation (an
OpenAI-style `tool_calls` delta) and ends without any termination
marker. -/
def toolStream : String :=
  "data: \x7b\"choices\":[\x7b\"delta\":\x7b\"tool_calls\":[\x7b\"index\":0," ++
  "\"id\":\"call_1\",\"type\":\"function\",\"function\":\x7b\"name\":" ++
  "\"click\",\"arguments\":\"\"\x7d\x7d]\x7d\x7d]\x7d\ndata: [DONE]\n"

/-- A stream whose only data frame carries usage metadata. -/
def usageStream : String :=
  "data: \x7b\"usage\":\x7b\"prompt_tokens\":5,\"completion_tokens\":7\x7d\x7d" ++
  "\ndata: [DONE]\n"

/-- A stream consisting of the `[DONE]` sentinel alone. -/
def doneOnlyStream : String := "data: [DONE]\n"

/-- A concrete client whose caller-selected model is `gemini-2.5-pro`. -/
def exampleClient : GeminiClient :=
  { api_key := "test-key", model := "gemini-2.5-pro" }

/-- A successful provider response delivering the given chunks. -/
def mkResp (chunks : List String) : HttpResponse :=
  { status_success := true, error_text := "", chunks := chunks.map Except.ok }

/-- A line is not the `[DONE]` sentinel line. -/
def notDone (l : List Char) : Prop :=
  dataPrefix.isPrefixOf l = true → l.drop 6 ≠ doneLit

instance (l : List Char) : Decidable (notDone l) := by
  unfold notDone
  infer_instance

/-- Concatenation of the texts of all `TextDelta` events, in order. -/
def deltaConcat : List StreamEvent → List Char
  | [] => []
  | StreamEvent.textDelta t :: rest => t.data ++ deltaConcat rest
  | _ :: rest => deltaConcat rest

theorem consumeStream_ok (chunks : List String) (acc : DecState) :
    consumeStream acc (chunks.map Except.ok) = (chunks.foldl processChunk acc, none) := by
  induction chunks generalizing acc with
  | nil => rfl
  | cons c rest ih => simp [consumeStream, List.foldl_cons, ih]

theorem processLines_append (L1 L2 : List (List Char)) (acc : DecState)
    (h : ∀ l ∈ L1, notDone l) :
    processLines acc (L1 ++ L2) = processLines (processLines acc L1) L2 := by
  induction L1 generalizing acc with
  | nil => simp [processLines]
  | cons l rest ih =>
    have hl := h l (List.mem_cons_self l rest)
    have hrest : ∀ x ∈ rest, notDone x := fun x hx => h x (List.mem_cons_of_mem _ hx)
    simp only [List.cons_append, processLines]
    by_cases hp : dataPrefix.isPrefixOf l = true
    · rw [if_pos hp, if_pos hp]
      have hne : ¬(l.drop 6 = doneLit) := hl hp
      rw [if_neg hne, if_neg hne]
      cases hfc : frameContent (l.drop 6) with
      | some content => simp only [hfc]; exact ih _ hrest
      | none => simp only [hfc]; exact ih _ hrest
    · rw [if_neg hp, if_neg hp]
      exact ih _ hrest

theorem foldl_processLines_nil (LL : List (List (List Char))) (acc : DecState)
    (h : ∀ L ∈ LL, L = []) : LL.foldl processLines acc = acc := by
  induction LL generalizing acc with
  | nil => rfl
  | cons L rest ih =>
    have hL := h L (List.mem_cons_self L rest)
    rw [List.foldl_cons, hL]
    exact ih _ (fun x hx => h x (List.mem_cons_of_mem _ hx))

theorem processLines_flatten (LL : List (List (List Char))) (acc : DecState)
    (h : ∀ l ∈ LL.flatten.dropLast, notDone l) :
    LL.foldl processLines acc = processLines acc LL.flatten := by
  induction LL generalizing acc with
  | nil => rfl
  | cons L rest ih =>
    by_cases hr : rest.flatten = []
    · have hrest : ∀ X ∈ rest, X = [] := List.flatten_eq_nil_iff.mp hr
      rw [List.foldl_cons, foldl_processLines_nil rest _ hrest,
        List.flatten_cons, hr, List.append_nil]
    · have hsplit : (L :: rest).flatten.dropLast = L ++ rest.flatten.dropLast := by
        rw [List.flatten_cons, List.dropLast_append_of_ne_nil _ hr]
      have hL : ∀ l ∈ L, notDone l := fun l hl =>
        h l (by rw [hsplit]; exact List.mem_append_left _ hl)
      have hrest : ∀ l ∈ rest.flatten.dropLast, notDone l := fun l hl =>
        h l (by rw [hsplit]; exact List.mem_append_right _ hl)
      rw [List.foldl_cons, ih _ hrest, List.flatten_cons,
        processLines_append _ _ _ hL]

theorem deltaConcat_append (a b : List StreamEvent) :
    deltaConcat (a ++ b) = deltaConcat a ++ deltaConcat b := by
  induction a with
  | nil => rfl
  | cons e rest ih => cases e <;> simp [deltaConcat, ih, List.append_assoc]

theorem processLines_text_inv (L : List (List Char)) (acc : DecState)
    (h : acc.fullText = deltaConcat acc.events) :
    (processLines acc L).fullText = deltaConcat (processLines acc L).events := by
  induction L generalizing acc with
  | nil => simpa [processLines]
  | cons l rest ih =>
    simp only [processLines]
    by_cases hp : dataPrefix.isPrefixOf l = true
    · rw [if_pos hp]
      by_cases hd : l.drop 6 = doneLit
      · rw [if_pos hd]; exact h
      · rw [if_neg hd]
        cases hfc : frameContent (l.drop 6) with
        | some content =>
          simp only [hfc]
          exact ih _ (by simp [deltaConcat_append, deltaConcat, h])
        | none => simp only [hfc]; exact ih _ h
    · rw [if_neg hp]; exact ih _ h

theorem processLines_events (L : List (List Char)) (acc : DecState) :
    ∃ evs, (processLines acc L).events = acc.events ++ evs ∧
      ∀ e ∈ evs, ∃ t, e = StreamEvent.textDelta t := by
  induction L generalizing acc with
  | nil => exact ⟨[], by simp [processLines], by simp⟩
  | cons l rest ih =>
    simp only [processLines]
    by_cases hp : dataPrefix.isPrefixOf l = true
    · rw [if_pos hp]
      by_cases hd : l.drop 6 = doneLit
      · rw [if_pos hd]; exact ⟨[], by simp, by simp⟩
      · rw [if_neg hd]
        cases hfc : frameContent (l.drop 6) with
        | some content =>
          simp only [hfc]
          obtain ⟨evs, heq, hall⟩ :=
            ih { fullText := acc.fullText ++ content.data
                 events := acc.events ++ [StreamEvent.textDelta content] }
          refine ⟨StreamEvent.textDelta content :: evs, ?_, ?_⟩
          · rw [heq]; simp
          · intro e he
            rcases List.mem_cons.mp he with h1 | h2
            · exact ⟨content, h1⟩
            · exact hall e h2
        | none => simp only [hfc]; exact ih acc
    · rw [if_neg hp]; exact ih acc

theorem consumeStream_text_inv (chunks : List (Except String String)) (acc : DecState)
    (h : acc.fullText = deltaConcat acc.events) :
    ((consumeStream acc chunks).1).fullText
      = deltaConcat ((consumeStream acc chunks).1).events := by
  induction chunks generalizing acc with
  | nil => simpa [consumeStream]
  | cons item rest ih =>
    cases item with
    | error e => simpa [consumeStream]
    | ok c =>
      simp only [consumeStream, processChunk]
      exact ih _ (processLines_text_inv _ _ h)

theorem consumeStream_events_all (chunks : List (Except String String)) (acc : DecState)
    (h : ∀ e ∈ acc.events, ∃ t, e = StreamEvent.textDelta t) :
    ∀ e ∈ ((consumeStream acc chunks).1).events, ∃ t, e = StreamEvent.textDelta t := by
  induction chunks generalizing acc with
  | nil => simpa [consumeStream]
  | cons item rest ih =>
    cases item with
    | error e => simpa [consumeStream]
    | ok c =>
      simp only [consumeStream, processChunk]
      apply ih
      obtain ⟨evs, heq, hall⟩ := processLines_events (rustLines c.data) acc
      intro e he
      rw [heq] at he
      rcases List.mem_append.mp he with h1 | h2
      · exact h e h1
      · exact hall e h2

theorem send_status_err (client : GeminiClient) (messages : List Message)
    (mode : AgentMode) (rxOpen : Bool) (resp : HttpResponse)
    (h : resp.status_success = false) :
    send_message_streaming client messages mode rxOpen resp =
      (buildRequest client messages mode,
       Except.error (ApiError.api ("Gemini API error: " ++ resp.error_text)),
       []) := by
  unfold send_message_streaming
  rw [h]
  simp

theorem send_ok (client : GeminiClient) (messages : List Message)
    (mode : AgentMode) (rxOpen : Bool) (resp : HttpResponse)
    (acc : DecState)
    (hs : resp.status_success = true)
    (hc : consumeStream { fullText := [], events := [] } resp.chunks = (acc, none)) :
    send_message_streaming client messages mode rxOpen resp =
      (buildRequest client messages mode,
       Except.ok { content := [ContentBlock.text (String.mk acc.fullText)]
                   usage := zeroUsage },
       if rxOpen then acc.events else []) := by
  unfold send_message_streaming
  rw [hs, hc]
  simp

theorem send_transport_err (client : GeminiClient) (messages : List Message)
    (mode : AgentMode) (rxOpen : Bool) (resp : HttpResponse)
    (acc : DecState) (e : String)
    (hs : resp.status_success = true)
    (hc : consumeStream { fullText := [], events := [] } resp.chunks = (acc, some e)) :
    send_message_streaming client messages mode rxOpen resp =
      (buildRequest client messages mode,
       Except.error (ApiError.request e),
       if rxOpen then acc.events else []) := by
  unfold send_message_streaming
  rw [hs, hc]
  simp

/-- Claim C2: the start-run operation `run_agent` fails immediately and
synchronously — before any network activity or spawned work — with an
error when a run is already active or no API key is configured, and
otherwise starts the run (spawns the run task). -/
theorem run_agent_fails_fast (instructions model : String) (mode : AgentMode)
    (voice_mode : Option Bool) (history : List HistoryMessage)
    (context_screenshot : Option String) (conversation_id : Option String)
    (agent : Agent) :
    (run_agent instructions model mode voice_mode history context_screenshot
        conversation_id agent = RunAgentOutcome.spawned
      ↔ agent.is_running = false ∧ agent.has_api_key = true)
    ∧ ((agent.is_running = true ∨ agent.has_api_key = false) →
        ∃ msg, run_agent instructions model mode voice_mode history
          context_screenshot conversation_id agent = RunAgentOutcome.err msg) := by
  unfold run_agent
  cases hr : agent.is_running <;> cases hk : agent.has_api_key <;> simp [hr, hk]

/-- Witness for C2: with no stored key and no active run, `run_agent`
returns a synchronous error. -/
theorem run_agent_fails_fast_witness :
    ((Agent.mk none false).is_running = true
      ∨ (Agent.mk none false).has_api_key = false)
    ∧ ∃ msg, run_agent "open a browser" "gemini-2.5-pro" AgentMode.computer
        none [] none none (Agent.mk none false) = RunAgentOutcome.err msg :=
  ⟨Or.inr rfl,
   (run_agent_fails_fast "open a browser" "gemini-2.5-pro" AgentMode.computer
      none [] none none (Agent.mk none false)).2 (Or.inr rfl)⟩

/-- Claim C5 counterexample: the caller selects model `gemini-2.5-pro`,
but the `model` field of the outbound body is the hard-coded literal
`gemini-2.0-flash`, not the caller-selected model. -/
theorem request_model_counterexample :
    exampleClient.model = "gemini-2.5-pro"
    ∧ (buildRequest exampleClient [] AgentMode.computer).body.getKey "model"
        = Json.str "gemini-2.0-flash"
    ∧ (buildRequest exampleClient [] AgentMode.computer).body.getKey "model"
        ≠ Json.str exampleClient.model := by
  refine ⟨rfl, rfl, ?_⟩
  intro h
  have h2 : Json.str "gemini-2.0-flash" = Json.str "gemini-2.5-pro" := h
  injection h2 with h3
  exact absurd h3 (by decide)

/-- Claim C5 (amended): every provider request is an HTTPS POST to the
fixed endpoint carrying a bearer credential header and a JSON body with
exactly the fields `{model, messages, stream:true, max_tokens}` — but
the `model` field is always the literal `"gemini-2.0-flash"`,
regardless of the model the caller selected. -/
theorem request_shape (client : GeminiClient) (messages : List Message)
    (mode : AgentMode) :
    (buildRequest client messages mode).method = "POST"
    ∧ (buildRequest client messages mode).url = GEMINI_API_URL
    ∧ (∃ rest, (buildRequest client messages mode).url = "https://" ++ rest)
    ∧ (buildRequest client messages mode).headers.lookup "Authorization"
        = some ("Bearer " ++ client.api_key)
    ∧ (buildRequest client messages mode).body
        = Json.obj [("model", Json.str "gemini-2.0-flash"),
            ("messages", Json.arr (openaiMessages messages mode)),
            ("stream", Json.bool true),
            ("max_tokens", Json.num "4096")] :=
  ⟨rfl, rfl,
   ⟨"generativelanguage.googleapis.com/v1beta/openai/chat/completions", rfl⟩,
   rfl, rfl⟩

/-- Claim C6: on a non-success HTTP status, `send_message_streaming`
returns `ApiError::Api` carrying the provider's message (no retry is
attempted — exactly one request is built) and produces no content
blocks and no stream events. -/
theorem http_error_no_events (client : GeminiClient) (messages : List Message)
    (mode : AgentMode) (rxOpen : Bool) (resp : HttpResponse)
    (h : resp.status_success = false) :
    send_message_streaming client messages mode rxOpen resp =
      (buildRequest client messages mode,
       Except.error (ApiError.api ("Gemini API error: " ++ resp.error_text)),
       []) :=
  send_status_err client messages mode rxOpen resp h

/-- A concrete failed provider response. -/
def errResp : HttpResponse :=
  { status_success := false, error_text := "quota exceeded", chunks := [] }

/-- Witness for C6 at a concrete failed response. -/
theorem http_error_no_events_witness :
    errResp.status_success = false
    ∧ send_message_streaming exampleClient [] AgentMode.computer true errResp =
        (buildRequest exampleClient [] AgentMode.computer,
         Except.error (ApiError.api ("Gemini API error: " ++ errResp.error_text)),
         []) :=
  ⟨rfl, http_error_no_events exampleClient [] AgentMode.computer true errResp rfl⟩

/-- The translation applied to one content block when the outbound
message list is built. -/
def partFn : ContentBlock → Option Json
  | ContentBlock.text t => some (textPart t)
  | ContentBlock.image src => some (imagePart src)
  | _ => none

/-- Whether a content block kind survives the translation. -/
def keptBlock : ContentBlock → Bool
  | ContentBlock.text _ => true
  | ContentBlock.image _ => true
  | _ => false

theorem contentPartsAux_eq (blocks : List ContentBlock) (parts : List Json) :
    contentPartsAux parts blocks = parts ++ blocks.filterMap partFn := by
  induction blocks generalizing parts with
  | nil => simp [contentPartsAux]
  | cons b rest ih =>
    cases b <;> simp [contentPartsAux, partFn, List.filterMap_cons, ih]

theorem filterMap_keptBlock (blocks : List ContentBlock) :
    (blocks.filter keptBlock).filterMap partFn = blocks.filterMap partFn := by
  induction blocks with
  | nil => rfl
  | cons b rest ih =>
    cases b <;> simp [keptBlock, partFn, List.filterMap_cons, List.filter_cons, ih]

/-- Claim C7: in the outbound request every `Image` content block is
translated to the provider's inline-data representation
`data:<media_type>;base64,<data>`, and every block of any kind other
than `Text` or `Image` is silently dropped (the translation is total —
no error is possible). -/
theorem image_translation_and_drop (blocks : List ContentBlock) :
    contentParts blocks = blocks.filterMap partFn
    ∧ (∀ src, partFn (ContentBlock.image src)
        = some (Json.obj [("type", Json.str "image_url"),
            ("image_url", Json.obj [("url",
              Json.str ("data:" ++ src.media_type ++ ";base64," ++ src.data))])]))
    ∧ (∀ t, partFn (ContentBlock.text t) = some (textPart t))
    ∧ (∀ id name input, partFn (ContentBlock.toolUse id name input) = none)
    ∧ (∀ tid c, partFn (ContentBlock.toolResult tid c) = none)
    ∧ contentParts blocks = contentParts (blocks.filter keptBlock) := by
  refine ⟨?_, fun _ => rfl, fun _ => rfl, fun _ _ _ => rfl, fun _ _ => rfl, ?_⟩
  · exact contentPartsAux_eq blocks []
  · unfold contentParts
    rw [contentPartsAux_eq, contentPartsAux_eq, filterMap_keptBlock]

/-- Claim C9: whether the receiving end of the event channel is open or
closed never changes what `send_message_streaming` does: the same
request is sent, the stream is consumed the same way, and the same
result is returned (send errors are ignored); moreover with the
receiver closed a successfully consumed stream still returns `Ok` with
the aggregated text. -/
theorem receiver_closed_result_unchanged (client : GeminiClient)
    (messages : List Message) (mode : AgentMode) (resp : HttpResponse) :
    ((send_message_streaming client messages mode false resp).1
        = (send_message_streaming client messages mode true resp).1
      ∧ (send_message_streaming client messages mode false resp).2.1
        = (send_message_streaming client messages mode true resp).2.1)
    ∧ (resp.status_success = true →
        (consumeStream { fullText := [], events := [] } resp.chunks).2 = none →
        (send_message_streaming client messages mode false resp).2.1
          = Except.ok { content := [ContentBlock.text (String.mk
                          (consumeStream { fullText := [], events := [] }
                            resp.chunks).1.fullText)],
                        usage := zeroUsage }) := by
  constructor
  · by_cases hs : resp.status_success = true
    · rcases hc : consumeStream { fullText := [], events := [] } resp.chunks with ⟨acc, err⟩
      cases err with
      | none =>
        rw [send_ok client messages mode false resp acc hs hc,
          send_ok client messages mode true resp acc hs hc]
        exact ⟨rfl, rfl⟩
      | some e =>
        rw [send_transport_err client messages mode false resp acc e hs hc,
          send_transport_err client messages mode true resp acc e hs hc]
        exact ⟨rfl, rfl⟩
    · have hs' : resp.status_success = false := Bool.eq_false_iff.mpr hs
      rw [send_status_err client messages mode false resp hs',
        send_status_err client messages mode true resp hs']
      exact ⟨rfl, rfl⟩
  · intro hs hnone
    rcases hc : consumeStream { fullText := [], events := [] } resp.chunks with ⟨acc, err⟩
    rw [hc] at hnone
    cases err with
    | none =>
      rw [send_ok client messages mode false resp acc hs hc]
    | some e => exact absurd hnone (by simp)

/-- Witness for C9: a closed receiver still yields the aggregated
`Hello` result on the example stream. -/
theorem receiver_closed_result_unchanged_witness :
    (mkResp [fullStream]).status_success = true
    ∧ (consumeStream { fullText := [], events := [] } (mkResp [fullStream]).chunks).2 = none
    ∧ (send_message_streaming exampleClient [] AgentMode.computer false
        (mkResp [fullStream])).2.1
      = Except.ok { content := [ContentBlock.text (String.mk
                      (consumeStream { fullText := [], events := [] }
                        (mkResp [fullStream]).chunks).1.fullText)],
                    usage := zeroUsage } :=
  ⟨rfl, rfl,
   (receiver_closed_result_unchanged exampleClient [] AgentMode.computer
      (mkResp [fullStream])).2 rfl rfl⟩

set_option maxRecDepth 4000 in
/-- Claim C10: on every successful return the content of the result of
`send_message_streaming` is exactly one `Text` content block — never
zero, never more than one, never any other variant — and for a stream
with no text deltas the block's text is the empty string. -/
theorem result_single_text_block :
    (∀ (client : GeminiClient) (messages : List Message) (mode : AgentMode)
        (rxOpen : Bool) (resp : HttpResponse) (r : ApiResult),
        (send_message_streaming client messages mode rxOpen resp).2.1 = Except.ok r →
        ∃ t, r.content = [ContentBlock.text t])
    ∧ (send_message_streaming exampleClient [] AgentMode.computer true
          (mkResp [doneOnlyStream])).2.1
        = Except.ok { content := [ContentBlock.text ""], usage := zeroUsage } := by
  constructor
  · intro client messages mode rxOpen resp r h
    by_cases hs : resp.status_success = true
    · rcases hc : consumeStream { fullText := [], events := [] } resp.chunks with ⟨acc, err⟩
      cases err with
      | none =>
        rw [send_ok client messages mode rxOpen resp acc hs hc] at h
        simp only [Except.ok.injEq] at h
        exact ⟨String.mk acc.fullText, by rw [← h]⟩
      | some e =>
        rw [send_transport_err client messages mode rxOpen resp acc e hs hc] at h
        exact absurd h (by simp)
    · have hs' : resp.status_success = false := Bool.eq_false_iff.mpr hs
      rw [send_status_err client messages mode rxOpen resp hs'] at h
      exact absurd h (by simp)
  · rfl

/-- Witness for C10 at the sentinel-only stream. -/
theorem result_single_text_block_witness :
    (send_message_streaming exampleClient [] AgentMode.computer true
        (mkResp [doneOnlyStream])).2.1
      = Except.ok { content := [ContentBlock.text ""], usage := zeroUsage }
    ∧ ∃ t, ({ content := [ContentBlock.text ""], usage := zeroUsage } : ApiResult).content
        = [ContentBlock.text t] :=
  ⟨result_single_text_block.2,
   result_single_text_block.1 exampleClient [] AgentMode.computer true
     (mkResp [doneOnlyStream]) _ result_single_text_block.2⟩

/-- Claim C4: the aggregator concatenates all incremental text deltas in
arrival order into a single `Text` content block, and on the example
stream (`Hel`, `lo`, `[DONE]`) exactly two `TextDelta` events are
emitted and the aggregated text is `Hello`. -/
theorem text_delta_aggregation :
    (∀ (client : GeminiClient) (messages : List Message) (mode : AgentMode)
        (resp : HttpResponse) (r : ApiResult),
        (send_message_streaming client messages mode true resp).2.1 = Except.ok r →
        r.content = [ContentBlock.text (String.mk (deltaConcat
          (send_message_streaming client messages mode true resp).2.2))])
    ∧ (send_message_streaming exampleClient [] AgentMode.computer true
          (mkResp [fullStream])).2.2
        = [StreamEvent.textDelta "Hel", StreamEvent.textDelta "lo"]
    ∧ (send_message_streaming exampleClient [] AgentMode.computer true
          (mkResp [fullStream])).2.1
        = Except.ok { content := [ContentBlock.text "Hello"], usage := zeroUsage } := by
  refine ⟨?_, rfl, rfl⟩
  intro client messages mode resp r h
  by_cases hs : resp.status_success = true
  · rcases hc : consumeStream { fullText := [], events := [] } resp.chunks with ⟨acc, err⟩
    cases err with
    | none =>
      rw [send_ok client messages mode true resp acc hs hc] at h ⊢
      simp only [Except.ok.injEq] at h
      have hinv := consumeStream_text_inv resp.chunks { fullText := [], events := [] } rfl
      rw [hc] at hinv
      rw [← h]
      simp only [if_true]
      rw [hinv]
    | some e =>
      rw [send_transport_err client messages mode true resp acc e hs hc] at h
      exact absurd h (by simp)
  · have hs' : resp.status_success = false := Bool.eq_false_iff.mpr hs
    rw [send_status_err client messages mode true resp hs'] at h
    exact absurd h (by simp)

set_option maxRecDepth 4000 in
/-- Witness for C4 at the example stream. -/
theorem text_delta_aggregation_witness :
    (send_message_streaming exampleClient [] AgentMode.computer true
        (mkResp [fullStream])).2.1
      = Except.ok { content := [ContentBlock.text "Hello"], usage := zeroUsage }
    ∧ ({ content := [ContentBlock.text "Hello"], usage := zeroUsage } : ApiResult).content
      = [ContentBlock.text (String.mk (deltaConcat
          (send_message_streaming exampleClient [] AgentMode.computer true
            (mkResp [fullStream])).2.2))] :=
  ⟨text_delta_aggregation.2.2,
   text_delta_aggregation.1 exampleClient [] AgentMode.computer
     (mkResp [fullStream]) _ text_delta_aggregation.2.2⟩

set_option maxRecDepth 4000 in
/-- Claim C1 counterexample: the same bytes (`fragA ++ fragB =
fullStream`) decoded as two chunks split in the middle of the second
frame's line yield a different event sequence and a different
aggregated text than the unfragmented stream: the partial trailing
line of the first chunk is parsed (and dropped) immediately instead of
being held. -/
theorem fragmentation_counterexample :
    fragA ++ fragB = fullStream
    ∧ (send_message_streaming exampleClient [] AgentMode.computer true
          (mkResp [fullStream])).2.1
        = Except.ok { content := [ContentBlock.text "Hello"], usage := zeroUsage }
    ∧ (send_message_streaming exampleClient [] AgentMode.computer true
          (mkResp [fragA, fragB])).2.1
        = Except.ok { content := [ContentBlock.text "Hel"], usage := zeroUsage }
    ∧ (send_message_streaming exampleClient [] AgentMode.computer true
          (mkResp [fullStream])).2.2
        = [StreamEvent.textDelta "Hel", StreamEvent.textDelta "lo"]
    ∧ (send_message_streaming exampleClient [] AgentMode.computer true
          (mkResp [fragA, fragB])).2.2
        = [StreamEvent.textDelta "Hel"]
    ∧ ("Hello" : String) ≠ "Hel" :=
  ⟨rfl, rfl, rfl, rfl, rfl, by decide⟩

/-- Claim C1 (amended): fragmentation invariance holds only for splits
on line boundaries — if the chunking splits the stream's text exactly
at its lines (`hsplit`) and the `[DONE]` sentinel occurs at most as the
global last line (`hdone`), then `send_message_streaming` produces the
same events and the same aggregated result as for the unfragmented
stream.  For arbitrary byte splits it does not (see the
counterexample): a partial trailing line of a chunk is parsed
immediately, not held until the rest of the line arrives. -/
theorem whole_line_chunking_invariant (client : GeminiClient)
    (messages : List Message) (mode : AgentMode) (rxOpen : Bool)
    (chunks : List String)
    (hsplit : rustLines (String.join chunks).data
        = ((chunks.map (fun c => rustLines c.data)).flatten))
    (hdone : ∀ l ∈ ((chunks.map (fun c => rustLines c.data)).flatten).dropLast,
        notDone l) :
    send_message_streaming client messages mode rxOpen (mkResp chunks)
      = send_message_streaming client messages mode rxOpen
          (mkResp [String.join chunks]) := by
  have h1 : consumeStream { fullText := [], events := [] } (mkResp chunks).chunks
      = (decodeChunks chunks, none) := by
    simp [mkResp, consumeStream_ok, decodeChunks]
  have h2 : consumeStream { fullText := [], events := [] }
        (mkResp [String.join chunks]).chunks
      = (decodeChunks [String.join chunks], none) := by
    show consumeStream { fullText := [], events := [] }
        ([String.join chunks].map Except.ok) = _
    rw [consumeStream_ok]
    rfl
  rw [send_ok client messages mode rxOpen (mkResp chunks) _ rfl h1,
    send_ok client messages mode rxOpen (mkResp [String.join chunks]) _ rfl h2]
  have hdec : decodeChunks chunks = decodeChunks [String.join chunks] := by
    unfold decodeChunks
    have hstep : ∀ acc : DecState,
        chunks.foldl processChunk acc = processChunk acc (String.join chunks) := by
      intro acc
      calc chunks.foldl processChunk acc
          = (chunks.map (fun c => rustLines c.data)).foldl processLines acc := by
            rw [List.foldl_map]
            rfl
        _ = processLines acc ((chunks.map (fun c => rustLines c.data)).flatten) :=
            processLines_flatten _ _ hdone
        _ = processLines acc (rustLines (String.join chunks).data) := by rw [hsplit]
        _ = processChunk acc (String.join chunks) := rfl
    rw [hstep, List.foldl_cons, List.foldl_nil]
  rw [hdec]

set_option maxRecDepth 8000 in
/-- Witness for the amended C1 at a concrete whole-line fragmentation
of the example stream. -/
theorem whole_line_chunking_invariant_witness :
    (rustLines (String.join [lineChunk1, lineChunk2]).data
      = (([lineChunk1, lineChunk2].map (fun c => rustLines c.data)).flatten))
    ∧ (∀ l ∈ (([lineChunk1, lineChunk2].map
          (fun c => rustLines c.data)).flatten).dropLast, notDone l)
    ∧ send_message_streaming exampleClient [] AgentMode.computer true
          (mkResp [lineChunk1, lineChunk2])
        = send_message_streaming exampleClient [] AgentMode.computer true
            (mkResp [String.join [lineChunk1, lineChunk2]]) :=
  ⟨rfl, by decide,
   whole_line_chunking_invariant exampleClient [] AgentMode.computer true
     [lineChunk1, lineChunk2] rfl (by decide)⟩

set_option maxRecDepth 4000 in
/-- Claim C3 counterexample: on a stream that signals the start of a
tool invocation (`tool_calls` delta) and ends without any termination
marker, `send_message_streaming` does not return
`ApiError::Protocol` — it returns `Ok` with an empty `Text` block and
emits no event at all. -/
theorem unterminated_tool_use_counterexample :
    (send_message_streaming exampleClient [] AgentMode.computer true
        (mkResp [toolStream])).2.1
      = Except.ok { content := [ContentBlock.text ""], usage := zeroUsage }
    ∧ (send_message_streaming exampleClient [] AgentMode.computer true
        (mkResp [toolStream])).2.2 = []
    ∧ ((send_message_streaming exampleClient [] AgentMode.computer true
        (mkResp [toolStream])).2.1).isOk = true :=
  ⟨rfl, rfl, rfl⟩

/-- Claim C3 (amended): tool-invocation signals in the stream are
ignored entirely — `send_message_streaming` never returns
`ApiError::Protocol`, never emits a `ToolUse` content block (every
content block of a successful result is a `Text` block) and never
sends any stream event other than `TextDelta`. -/
theorem tool_use_signals_ignored :
    (∀ (client : GeminiClient) (messages : List Message) (mode : AgentMode)
        (rxOpen : Bool) (resp : HttpResponse) (m : String),
        (send_message_streaming client messages mode rxOpen resp).2.1
          ≠ Except.error (ApiError.protocol m))
    ∧ (∀ (client : GeminiClient) (messages : List Message) (mode : AgentMode)
        (rxOpen : Bool) (resp : HttpResponse) (r : ApiResult),
        (send_message_streaming client messages mode rxOpen resp).2.1
          = Except.ok r →
        ∀ b ∈ r.content, ∃ t, b = ContentBlock.text t)
    ∧ (∀ (client : GeminiClient) (messages : List Message) (mode : AgentMode)
        (rxOpen : Bool) (resp : HttpResponse),
        ∀ e ∈ (send_message_streaming client messages mode rxOpen resp).2.2,
        ∃ t, e = StreamEvent.textDelta t) := by
  refine ⟨?_, ?_, ?_⟩
  · intro client messages mode rxOpen resp m h
    by_cases hs : resp.status_success = true
    · rcases hc : consumeStream { fullText := [], events := [] } resp.chunks
        with ⟨acc, err⟩
      cases err with
      | none =>
        rw [send_ok client messages mode rxOpen resp acc hs hc] at h
        exact absurd h (by simp)
      | some e =>
        rw [send_transport_err client messages mode rxOpen resp acc e hs hc] at h
        simp only [Except.error.injEq] at h
        exact absurd h (by simp)
    · have hs' : resp.status_success = false := Bool.eq_false_iff.mpr hs
      rw [send_status_err client messages mode rxOpen resp hs'] at h
      simp only [Except.error.injEq] at h
      exact absurd h (by simp)
  · intro client messages mode rxOpen resp r h b hb
    by_cases hs : resp.status_success = true
    · rcases hc : consumeStream { fullText := [], events := [] } resp.chunks
        with ⟨acc, err⟩
      cases err with
      | none =>
        rw [send_ok client messages mode rxOpen resp acc hs hc] at h
        simp only [Except.ok.injEq] at h
        rw [← h] at hb
        simp only [List.mem_singleton] at hb
        exact ⟨String.mk acc.fullText, hb⟩
      | some e =>
        rw [send_transport_err client messages mode rxOpen resp acc e hs hc] at h
        exact absurd h (by simp)
    · have hs' : resp.status_success = false := Bool.eq_false_iff.mpr hs
      rw [send_status_err client messages mode rxOpen resp hs'] at h
      exact absurd h (by simp)
  · intro client messages mode rxOpen resp e he
    by_cases hs : resp.status_success = true
    · rcases hc : consumeStream { fullText := [], events := [] } resp.chunks
        with ⟨acc, err⟩
      have hall : ∀ x ∈ acc.events, ∃ t, x = StreamEvent.textDelta t := by
        have := consumeStream_events_all resp.chunks
          { fullText := [], events := [] } (by simp)
        rw [hc] at this
        exact this
      cases err with
      | none =>
        rw [send_ok client messages mode rxOpen resp acc hs hc] at he
        cases rxOpen with
        | true => exact hall e (by simpa using he)
        | false => exact absurd he (by simp)
      | some e2 =>
        rw [send_transport_err client messages mode rxOpen resp acc e2 hs hc] at he
        cases rxOpen with
        | true => exact hall e (by simpa using he)
        | false => exact absurd he (by simp)
    · have hs' : resp.status_success = false := Bool.eq_false_iff.mpr hs
      rw [send_status_err client messages mode rxOpen resp hs'] at he
      exact absurd he (by simp)

set_option maxRecDepth 4000 in
/-- Witness for the amended C3 at the unterminated tool-use stream. -/
theorem tool_use_signals_ignored_witness :
    (send_message_streaming exampleClient [] AgentMode.computer true
        (mkResp [toolStream])).2.1
      = Except.ok { content := [ContentBlock.text ""], usage := zeroUsage }
    ∧ (∀ b ∈ ({ content := [ContentBlock.text ""], usage := zeroUsage }
        : ApiResult).content, ∃ t, b = ContentBlock.text t) :=
  ⟨rfl,
   tool_use_signals_ignored.2.1 exampleClient [] AgentMode.computer true
     (mkResp [toolStream]) _ rfl⟩

set_option maxRecDepth 4000 in
/-- Claim C8 counterexample: a frame carrying usage metadata yields no
`Usage` event — the stream whose only data frame is a usage report
produces no stream event at all, and the returned usage totals are the
zero defaults. -/
theorem usage_frame_counterexample :
    (send_message_streaming exampleClient [] AgentMode.computer true
        (mkResp [usageStream])).2.2 = []
    ∧ (send_message_streaming exampleClient [] AgentMode.computer true
        (mkResp [usageStream])).2.1
      = Except.ok { content := [ContentBlock.text ""], usage := zeroUsage } :=
  ⟨rfl, rfl⟩

/-- Claim C8 (amended): each line of the stream yields at most one
`StreamEvent`, and only ever a `TextDelta` (a frame whose delta carries
incremental text); usage metadata in frames is ignored — no `Usage`
event is ever emitted and the usage totals of every successful result
are the zero defaults. -/
theorem frame_events_shape :
    (∀ (acc : DecState) (l : List Char),
        ∃ evs, (processLines acc [l]).events = acc.events ++ evs
          ∧ evs.length ≤ 1
          ∧ ∀ e ∈ evs, ∃ t, e = StreamEvent.textDelta t)
    ∧ (∀ (client : GeminiClient) (messages : List Message) (mode : AgentMode)
        (rxOpen : Bool) (resp : HttpResponse) (r : ApiResult),
        (send_message_streaming client messages mode rxOpen resp).2.1
          = Except.ok r →
        r.usage = zeroUsage) := by
  constructor
  · intro acc l
    simp only [processLines]
    by_cases hp : dataPrefix.isPrefixOf l = true
    · rw [if_pos hp]
      by_cases hd : l.drop 6 = doneLit
      · rw [if_pos hd]
        exact ⟨[], by simp, by simp, by simp⟩
      · rw [if_neg hd]
        cases hfc : frameContent (l.drop 6) with
        | some content =>
          simp only [hfc]
          refine ⟨[StreamEvent.textDelta content], ?_, by simp, ?_⟩
          · simp [processLines]
          · intro e he
            simp only [List.mem_singleton] at he
            exact ⟨content, he⟩
        | none =>
          simp only [hfc]
          exact ⟨[], by simp [processLines], by simp, by simp⟩
    · rw [if_neg hp]
      exact ⟨[], by simp [processLines], by simp, by simp⟩
  · intro client messages mode rxOpen resp r h
    by_cases hs : resp.status_success = true
    · rcases hc : consumeStream { fullText := [], events := [] } resp.chunks
        with ⟨acc, err⟩
      cases err with
      | none =>
        rw [send_ok client messages mode rxOpen resp acc hs hc] at h
        simp only [Except.ok.injEq] at h
        rw [← h]
      | some e =>
        rw [send_transport_err client messages mode rxOpen resp acc e hs hc] at h
        exact absurd h (by simp)
    · have hs' : resp.status_success = false := Bool.eq_false_iff.mpr hs
      rw [send_status_err client messages mode rxOpen resp hs'] at h
      exact absurd h (by simp)

set_option maxRecDepth 4000 in
/-- Witness for the amended C8: a frame line with incremental text
yields exactly one `TextDelta`, and the concrete successful result has
the zero usage totals. -/
theorem frame_events_shape_witness :
    (send_message_streaming exampleClient [] AgentMode.computer true
        (mkResp [fullStream])).2.1
      = Except.ok { content := [ContentBlock.text "Hello"], usage := zeroUsage }
    ∧ ({ content := [ContentBlock.text "Hello"], usage := zeroUsage }
        : ApiResult).usage = zeroUsage :=
  ⟨rfl,
   frame_events_shape.2 exampleClient [] AgentMode.computer true
     (mkResp [fullStream]) _ rfl⟩
